import Mathlib

/-!
Verification of the pyfo style-checker / refactoring engine.

The definitions below are a shallow embedding of the Python sources:

* `pyfo/rules_checker/core.py` — the rule-checker framework, the
  `_FindingReporter` diagnostics aggregator and the `_LinesResolver`
  patch transaction (1-based line buffer, span-based edit primitives,
  commit-on-exit).
* `pyfo/rules_checker/check_imports.py` — the import-discipline rule,
  in particular the duplicate `from X import` merge fix.
* `pyfo_formatter/rules_checker/check_all_at_the_end.py` — the
  export-list rule's notion of public members.
* `pyfo_formatter/rules_checker/check_annotations.py` — the
  return-annotation fix.
* `pyfo_formatter/rules_checker/worker.py` and `pyfo/__main__.py` —
  the per-file driver loop and the process exit status.
* `pyfo_formatter/code_parser/datatypes.py` — the `lines` accessor of
  a syntax-tree element.

Python line buffers are modelled as `List String` (one entry per line,
newline characters kept, indices 1-based as in `_Lines`).  Python
exceptions (`AssertionError` from `_range`, `NameError` from reading an
unbound local, `IndexError` from list indexing) are modelled with
`Except PyExc`.
-/

/-- Python exceptions that the embedded code paths can raise. -/
inductive PyExc where
  | assertionError
  | nameError
  | indexError
deriving DecidableEq, Repr

/-! ## Line Resolver (patch transaction) primitives

`_LinesResolver` keeps a mutable copy of the file's lines, 1-indexed via
the `_Lines` wrapper.  Spans are `(lineno, end_lineno)`, both 1-based and
inclusive; a node without location information reports `(0, 0)` (the
`getattr(..., 0)` defaults in `SyntaxTreeElement`).
-/

/-- Embeds `_LinesResolver._range`:
`assert lineno > 0 and end_lineno > 0` and then return the pair.
The failed assertion is the `AssertionError` case. -/
def rangeChecked (lineno endLineno : Nat) : Except PyExc (Nat × Nat) :=
  if 0 < lineno ∧ 0 < endLineno then .ok (lineno, endLineno)
  else .error .assertionError

/-- Embeds `_LinesResolver.remove`:
`del self.line.lines[lineno - 1 : end_lineno]` after `_range`. -/
def removeOp (buf : List String) (lineno endLineno : Nat) :
    Except PyExc (List String) := do
  let (l, e) ← rangeChecked lineno endLineno
  pure (buf.take (l - 1) ++ buf.drop e)

/-- Embeds `_LinesResolver.replace_lines` (explicit span, no assertion):
`above, bellow = lines[: lineno - 1], lines[end_lineno:]`. -/
def replaceLinesOp (newLines : List String) (buf : List String)
    (lineno endLineno : Nat) : List String :=
  buf.take (lineno - 1) ++ newLines ++ buf.drop endLineno

/-- Embeds `_LinesResolver.replace`: `_range` then `replace_lines`. -/
def replaceOp (newLines : List String) (buf : List String)
    (lineno endLineno : Nat) : Except PyExc (List String) := do
  let (l, e) ← rangeChecked lineno endLineno
  pure (replaceLinesOp newLines buf l e)

/-- Embeds `_LinesResolver.insert_bellow` (the source spells it so):
`_range` on the anchor, then splice after `end_lineno`. -/
def insertBelowOp (newLines : List String) (buf : List String)
    (lineno endLineno : Nat) : Except PyExc (List String) := do
  let (_, e) ← rangeChecked lineno endLineno
  pure (buf.take e ++ newLines ++ buf.drop e)

/-- Embeds `_LinesResolver.insert_above`:
`lineno = max(self._range_with_zero()[0], 1)` — the `>= 0` assertion of
`_range_with_zero` always holds for natural line numbers, so no error. -/
def insertAboveOp (newLines : List String) (buf : List String)
    (lineno : Nat) : List String :=
  let l := max lineno 1
  buf.take (l - 1) ++ newLines ++ buf.drop (l - 1)

/-- Embeds `_LinesResolver.append_to_end`:
two blank lines, then the given lines. -/
def appendToEndOp (newLines : List String) (buf : List String) : List String :=
  buf ++ ["\n", "\n"] ++ newLines

/-! ## The transaction exit (`_LinesResolver.__exit__`)

On a clean exit the source runs

```python
if self != self.original:
    ... write temp file, move over original, self.st.reload() ...
else:
    ... "Nothing has changed ..." ...
```

`self` is the `_LinesResolver` instance while `self.original` is the
`list` of lines read at entry.  Neither class defines cross-type
equality, so Python resolves `!=` of the two distinct objects by
identity and the test is true for every buffer.  We embed the two
operands as tagged values and equality exactly as Python decides it:
lists compare elementwise, while a resolver and a list are never equal.
-/

/-- The two operand shapes of the `self != self.original` comparison. -/
inductive PyValue where
  | resolverObj (buffer original : List String)
  | pyList (elems : List String)
deriving DecidableEq, Repr

/-- Python `==` on the operand shapes above: two lists compare
elementwise; a `_LinesResolver` instance and a `list` are distinct
objects of unrelated types and thus never equal. -/
def pyEq : PyValue → PyValue → Bool
  | .pyList a, .pyList b => a == b
  | _, _ => false

/-- The note `__exit__` attaches to the finding's report:
`"Wring fix into file ..."` on the write branch, `"Nothing has changed ..."`
on the other. -/
inductive ExitNote where
  | writingFix
  | nothingChanged
deriving DecidableEq, Repr

/-- Observable outcome of a clean transaction exit. -/
structure ExitReport where
  written : Bool
  reloaded : Bool
  note : ExitNote
  fileLines : List String
deriving DecidableEq, Repr

/-- Embeds `_LinesResolver.__exit__` with no pending exception:
the `self != self.original` test decides between flushing the buffer
(temp file + move + `self.st.reload()`) and doing nothing. -/
def linesResolverExit (buffer original : List String) : ExitReport :=
  if ¬ pyEq (.resolverObj buffer original) (.pyList original) then
    { written := true, reloaded := true, note := .writingFix,
      fileLines := buffer }
  else
    { written := false, reloaded := false, note := .nothingChanged,
      fileLines := original }

/-! ## Syntax-tree element `lines` accessor

`SyntaxTreeElement.lines` (datatypes.py):

```python
if not lineno or not end_lineno:
    return []
return self.file_info.lines[lineno - 1 : end_lineno]
```

A Python slice `xs[a:b]` with nonnegative bounds is
`(xs.drop a).take (b - a)` including the clamping behaviour.
-/

/-- Embeds the `SyntaxTreeElement.lines` property. -/
def linesProp (fileLines : List String) (lineno endLineno : Nat) :
    List String :=
  if lineno = 0 ∨ endLineno = 0 then []
  else (fileLines.drop (lineno - 1)).take (endLineno - (lineno - 1))

/-! ## Theorems: transaction exit and span safety -/

/-- C1: the spec says a transaction whose buffer equals the original
performs no write, no reload, and attaches the nothing-changed note.
The code compares the resolver *object* with the original *list*
(`self != self.original`), which is true regardless of the buffer, so a
no-op transaction still writes the file, reloads the tree, and reports
the writing-fix note.  Evaluated here at the concrete unchanged buffer
`["x = 1\n"]`. -/
theorem noop_transaction_still_writes :
    (linesResolverExit ["x = 1\n"] ["x = 1\n"]).written = true ∧
    (linesResolverExit ["x = 1\n"] ["x = 1\n"]).reloaded = true ∧
    (linesResolverExit ["x = 1\n"] ["x = 1\n"]).note = ExitNote.writingFix := by
  decide

/-- C2 counterexample: a span-based patch against a node with span
`(0, 0)` does not return a "refactoring unavailable" report — the
`_range` assertion raises an `AssertionError` (uncaught anywhere in the
sources), shown here for `remove` on a one-line buffer. -/
theorem span_zero_patch_raises_cex :
    removeOp ["a\n"] 0 0 = Except.error PyExc.assertionError := by
  rfl

/-- C2 amended: every span-based patch operation (`remove`, `replace`,
`insert_bellow`) attempted against a node whose span has a zero bound
raises the `_range` assertion before any mutation, so the attempt never
produces a mutated buffer; the "refactoring unavailable for this
finding" report is produced only by the separate `refactor_none`
callback, not by these operations. -/
theorem span_zero_patch_asserts (buf newLines : List String)
    (lineno endLineno : Nat) (h : lineno = 0 ∨ endLineno = 0) :
    removeOp buf lineno endLineno = Except.error PyExc.assertionError ∧
    replaceOp newLines buf lineno endLineno
      = Except.error PyExc.assertionError ∧
    insertBelowOp newLines buf lineno endLineno
      = Except.error PyExc.assertionError := by
  have hr : rangeChecked lineno endLineno = .error .assertionError := by
    unfold rangeChecked
    rcases h with h | h <;> simp [h]
  refine ⟨?_, ?_, ?_⟩ <;>
    simp [removeOp, replaceOp, insertBelowOp, hr, Except.bind]

/-- C2 witness: the amended statement at span `(0, 0)` on a concrete
buffer. -/
theorem span_zero_patch_asserts_witness :
    removeOp ["import os\n"] 0 0 = Except.error PyExc.assertionError ∧
    replaceOp ["y\n"] ["import os\n"] 0 0
      = Except.error PyExc.assertionError ∧
    insertBelowOp ["y\n"] ["import os\n"] 0 0
      = Except.error PyExc.assertionError :=
  span_zero_patch_asserts ["import os\n"] ["y\n"] 0 0 (Or.inl rfl)

/-- C10: the `lines` accessor is total; an absent start or end line
(reported as `0`) yields the empty list, and otherwise — for a span
that lies inside the file — it yields exactly the file's lines from the
1-based start line through the end line inclusive (stated as the
`lineno - 1` lines dropped from the first `endLineno` lines). -/
theorem lines_accessor_total_spec (fileLines : List String)
    (lineno endLineno : Nat) :
    ((lineno = 0 ∨ endLineno = 0) →
      linesProp fileLines lineno endLineno = []) ∧
    (1 ≤ lineno → lineno ≤ endLineno → endLineno ≤ fileLines.length →
      linesProp fileLines lineno endLineno
        = (fileLines.take endLineno).drop (lineno - 1)) := by
  constructor
  · intro h
    unfold linesProp
    simp [h]
  · intro h1 h2 _h3
    have hne : ¬ (lineno = 0 ∨ endLineno = 0) := by omega
    unfold linesProp
    rw [if_neg hne]
    rw [List.drop_take]

/-- C10 witness: lines 2..3 of a three-line file. -/
theorem lines_accessor_total_spec_witness :
    linesProp ["a\n", "b\n", "c\n"] 2 3 = ["b\n", "c\n"] := by
  have h := (lines_accessor_total_spec ["a\n", "b\n", "c\n"] 2 3).2
    (by decide) (by decide) (by decide)
  simpa using h

/-! ## Iteration driver and process exit status (`pyfo/__main__.py`)

```python
for try_idx in range(1, max(kwargs["refactor"], 1) + 1):
    failures = run_checker(*args, **kwargs)
    if failures:
        ...
        if try_idx == kwargs["refactor"]:
            ...
            exit(1)
    else:
        ...
        exit(0)
```

`failuresAt t` is the number of failure batches the `t`-th pass
produces.  Falling off the end of the loop returns from `main`, which
ends the process with the success status `0`.
-/

/-- The loop body of `main`, with explicit fuel for the remaining
`range` iterations.  Result is the process exit status. -/
def mainLoopGo (refactor : Nat) (failuresAt : Nat → Nat) :
    Nat → Nat → Nat
  | 0, _ => 0
  | fuel + 1, tryIdx =>
    if failuresAt tryIdx ≠ 0 then
      if tryIdx = refactor then 1
      else mainLoopGo refactor failuresAt fuel (tryIdx + 1)
    else 0

/-- Embeds `main`: iterate `try_idx` from `1` to `max(refactor, 1)`. -/
def mainExitCode (refactor : Nat) (failuresAt : Nat → Nat) : Nat :=
  mainLoopGo refactor failuresAt (max refactor 1) 1

/-- C3: the spec says a check-only run (attempt bound `0`) with residual
findings fails immediately with a failure exit status.  In the code the
exit-1 branch requires `try_idx == kwargs["refactor"]`, which for
`refactor = 0` is `1 == 0`; the loop falls through and the process ends
with the success status `0` even though the single pass produced a
failure.  With bound `1` the same run exits `1`, confirming the branch
is reachable. -/
theorem check_only_failures_exit_success :
    mainExitCode 0 (fun _ => 1) = 0 ∧ mainExitCode 1 (fun _ => 1) = 1 := by
  constructor <;> rfl

/-! ## Diagnostics aggregator (`_FindingReporter` and `RuleChecker.report`)

`RuleChecker.report` returns a fresh `_FindingReporter` when no finding
is open (its `with`-exit raises the accumulated
`RulesCheckerFindingReportedError`), and a clone sharing the same error
object otherwise (its exit appends silently and does not raise).
The state below tracks the single shared batch and how many batches
were ever opened; the `Bool` result is "the report raised".
-/

/-- Aggregator state: the open batch of report rows, if any, and the
number of batches opened so far. -/
structure RunSt where
  batch : Option (List String)
  openedCount : Nat
deriving DecidableEq, Repr

/-- The header row `_FindingReporter.__enter__` prepends:
`"Reported in <file>:<line>"` followed by a blank line. -/
def findingHeader (file : String) (line : Nat) : String :=
  "Reported in " ++ file ++ ":" ++ toString line ++ "\n\n"

/-- Embeds one `with self.report(file, st_elm) as report: report += rows`
block.  First finding: a new reporter adds the header, the rows and the
trailing blank row, then raises (`true`).  Later findings: the clone
appends the rows into the same batch and does not raise (`false`). -/
def reportFinding (file : String) (line : Nat) (st : RunSt)
    (rows : List String) : RunSt × Bool :=
  match st.batch with
  | none =>
    ({ batch := some ([findingHeader file line] ++ rows ++ ["\n\n"]),
       openedCount := st.openedCount + 1 }, true)
  | some b => ({ st with batch := some (b ++ rows) }, false)

/-- Embeds `RuleChecker.resolve_finding`: report first; if that raised
the finding error and refactor mode is on, run the fix callback (which
appends its own notes through clones of the reporter); re-raise either
way the report raised.  The `Bool` result is "a finding propagated to
the caller". -/
def resolveFinding (refactorMode : Bool) (file : String) (line : Nat)
    (st : RunSt) (rows : List String) (fix : RunSt → RunSt) :
    RunSt × Bool :=
  let (st1, raised) := reportFinding file line st rows
  if raised then
    ((if refactorMode then fix st1 else st1), true)
  else
    (st1, false)

/-- A whole sequence of report blocks for one file, in order. -/
def reportMany (file : String) (line : Nat) (st : RunSt)
    (calls : List (List String)) : RunSt :=
  calls.foldl (fun s rows => (reportFinding file line s rows).1) st

/-- Embeds the worker surfacing the raised error: one failure group per
raised batch. -/
def surfaceBatch (st : RunSt) : List (List String) :=
  match st.batch with
  | some b => [b]
  | none => []

/-- Once a batch is open, every further report block appends its rows
into that same batch and opens nothing new. -/
theorem reportMany_some (file : String) (line : Nat) (b : List String)
    (n : Nat) (calls : List (List String)) :
    reportMany file line ⟨some b, n⟩ calls = ⟨some (b ++ calls.flatten), n⟩ := by
  induction calls generalizing b with
  | nil => simp [reportMany]
  | cons c cs ih =>
    have hstep : reportMany file line ⟨some b, n⟩ (c :: cs)
        = reportMany file line ⟨some (b ++ c), n⟩ cs := by
      simp [reportMany, reportFinding]
    rw [hstep, ih]
    simp

/-- C4: for a call of `resolve_finding` with no finding open yet, the
finding is first reported (the batch is opened with the header and the
message rows before the fix callback sees the state), the fix callback
runs exactly when refactor mode is enabled, and in both modes the
finding still propagates to the caller. -/
theorem resolve_finding_report_fix_propagate (refactorMode : Bool)
    (file : String) (line : Nat) (st : RunSt) (rows : List String)
    (fix : RunSt → RunSt) (h : st.batch = none) :
    resolveFinding refactorMode file line st rows fix
      = ((if refactorMode then fix else id)
          { batch := some ([findingHeader file line] ++ rows ++ ["\n\n"]),
            openedCount := st.openedCount + 1 }, true) := by
  cases refactorMode <;> simp [resolveFinding, reportFinding, h]

/-- C4 witness: a concrete first finding in refactor mode, with an
identity fix callback. -/
theorem resolve_finding_report_fix_propagate_witness :
    resolveFinding true "f.py" 3 ⟨none, 0⟩ ["msg"] (fun s => s)
      = ({ batch := some ([findingHeader "f.py" 3] ++ ["msg"] ++ ["\n\n"]),
           openedCount := 1 }, true) := by
  have h := resolve_finding_report_fix_propagate true "f.py" 3 ⟨none, 0⟩
    ["msg"] (fun s => s) rfl
  simpa using h

/-- C7: during one check pass, the first report block opens a new batch
(and it is the only batch ever opened), every later report block for the
file appends into that same batch, and the batch is surfaced to the
caller exactly once as the single failure group. -/
theorem finding_batch_single (file : String) (line : Nat)
    (c : List String) (cs : List (List String)) :
    (reportMany file line ⟨none, 0⟩ (c :: cs)).openedCount = 1 ∧
    (reportMany file line ⟨none, 0⟩ (c :: cs)).batch
      = some ([findingHeader file line] ++ c ++ ["\n\n"] ++ cs.flatten) ∧
    surfaceBatch (reportMany file line ⟨none, 0⟩ (c :: cs))
      = [[findingHeader file line] ++ c ++ ["\n\n"] ++ cs.flatten] := by
  have hstep : reportMany file line ⟨none, 0⟩ (c :: cs)
      = reportMany file line
          ⟨some ([findingHeader file line] ++ c ++ ["\n\n"]), 1⟩ cs := by
    simp [reportMany, reportFinding]
  rw [hstep, reportMany_some]
  refine ⟨rfl, by simp, by simp [surfaceBatch]⟩

/-! ## Rule iteration per file (`check_rules` and `run_checker`)

`check_rules` runs the registered rules in order; the first
`RulesCheckerFindingReportedError` is printed and re-raised, so later
rules are not evaluated.  `run_checker` catches that error per file,
appends the batch to the failure list, and continues with the next file.
A rule is modelled by its outcome for the current file.
-/

/-- What one rule does on the current file: pass, or raise the finding
error carrying its accumulated batch. -/
inductive RuleOutcome where
  | passed
  | failed (batch : List String)
deriving DecidableEq, Repr

/-- Embeds `check_rules`: how many rules were evaluated, and the batch
of the first failing rule, if any. -/
def checkRulesTrace : List RuleOutcome → Nat × Option (List String)
  | [] => (0, none)
  | .passed :: rs =>
    ((checkRulesTrace rs).1 + 1, (checkRulesTrace rs).2)
  | .failed b :: _ => (1, some b)

/-- Embeds the per-file loop of `run_checker`: each file's first rule
failure is caught and its batch collected; remaining files are still
processed. -/
def run_checker (files : List (List RuleOutcome)) : List (List String) :=
  files.filterMap (fun rules => (checkRulesTrace rules).2)

/-- C8: when a rule raises a finding failure for a file, no later rule
of that file is evaluated in the pass (exactly the passing prefix plus
the failing rule ran), the failing rule's batch is the one surfaced for
the file, and every other file is processed exactly as it would be on
its own. -/
theorem rule_failure_stops_file_continues_run
    (pre rest : List RuleOutcome) (b : List String)
    (fs1 fs2 : List (List RuleOutcome))
    (h : ∀ r ∈ pre, r = RuleOutcome.passed) :
    checkRulesTrace (pre ++ RuleOutcome.failed b :: rest)
      = (pre.length + 1, some b) ∧
    run_checker (fs1 ++ (pre ++ RuleOutcome.failed b :: rest) :: fs2)
      = run_checker fs1 ++ [b] ++ run_checker fs2 := by
  have htrace : ∀ pre' : List RuleOutcome,
      (∀ r ∈ pre', r = RuleOutcome.passed) →
      checkRulesTrace (pre' ++ RuleOutcome.failed b :: rest)
        = (pre'.length + 1, some b) := by
    intro pre'
    induction pre' with
    | nil => intro _; simp [checkRulesTrace]
    | cons r rs ih =>
      intro hp
      have hr : r = RuleOutcome.passed := hp r (by simp)
      subst hr
      have hrs := ih (fun x hx => hp x (by simp [hx]))
      simp [checkRulesTrace, hrs]
  have h1 := htrace pre h
  refine ⟨h1, ?_⟩
  unfold run_checker
  rw [List.filterMap_append]
  simp [h1]

/-- C8 witness: one passing rule, then a failing rule, then a rule that
is never reached, in the middle of a three-file run. -/
theorem rule_failure_stops_file_continues_run_witness :
    checkRulesTrace ([RuleOutcome.passed]
        ++ RuleOutcome.failed ["f1"] :: [RuleOutcome.passed])
      = (2, some ["f1"]) ∧
    run_checker ([[RuleOutcome.passed]]
        ++ ([RuleOutcome.passed]
            ++ RuleOutcome.failed ["f1"] :: [RuleOutcome.passed])
          :: [[RuleOutcome.failed ["g"]]])
      = run_checker [[RuleOutcome.passed]] ++ [["f1"]]
        ++ run_checker [[RuleOutcome.failed ["g"]]] :=
  rule_failure_stops_file_continues_run [RuleOutcome.passed]
    [RuleOutcome.passed] ["f1"] [[RuleOutcome.passed]]
    [[RuleOutcome.failed ["g"]]] (by decide)

/-! ## Python string helpers

Lean's built-in `String` primitives do not reduce inside the kernel, so
the Python string operations the rules use (`strip`, `rstrip`,
`startswith`, `endswith`, `in`, slicing, `sorted`, `set`) are embedded
structurally over the underlying character list.  Python compares
strings lexicographically by code point, which `charListLe` mirrors.
-/

/-- The whitespace characters Python's `str.strip` family removes. -/
def pyIsSpace (c : Char) : Bool :=
  c = ' ' || c = '\t' || c = '\n' || c = '\r' || c = '\x0b' || c = '\x0c'

/-- Helper of `pyRstrip`: remove trailing whitespace characters. -/
def rstripChars (l : List Char) : List Char :=
  ((l.reverse).dropWhile pyIsSpace).reverse

/-- Python `s.rstrip()`. -/
def pyRstrip (s : String) : String := ⟨rstripChars s.data⟩

/-- Python `s.strip()`. -/
def pyStrip (s : String) : String :=
  ⟨(rstripChars s.data).dropWhile pyIsSpace⟩

/-- Python `s.startswith(t)`. -/
def pyStartsWith (s t : String) : Bool := t.data.isPrefixOf s.data

/-- Python `s.endswith(t)`. -/
def pyEndsWith (s t : String) : Bool := t.data.isSuffixOf s.data

/-- Python `c in s` for a single-character needle. -/
def pyContainsChar (s : String) (c : Char) : Bool := s.data.contains c

/-- Python `s[:-n]` for `n` at most the length. -/
def pyDropRight (s : String) (n : Nat) : String :=
  ⟨s.data.take (s.data.length - n)⟩

/-- Lexicographic comparison of character lists by code point — the
order Python uses to compare strings. -/
def charListLe : List Char → List Char → Bool
  | [], _ => true
  | _ :: _, [] => false
  | x :: xs, y :: ys =>
    if x < y then true else if y < x then false else charListLe xs ys

/-- Python `<=` on strings. -/
def strLe (a b : String) : Bool := charListLe a.data b.data

/-- Python `sorted(set(l))` (equivalently `list({...}); .sort()`):
the distinct elements in ascending order.  `eraseDups` keeps first
occurrences, whose order the subsequent stable sort makes irrelevant. -/
def sortedDedup (l : List String) : List String :=
  (l.eraseDups).insertionSort (fun a b => strLe a b = true)

/-! ## Duplicate `from X import` merge (`check_imports.py`)

`_check_imports_one_from_only_once` walks the import block; for the
first module imported from more than once it sets
`self.fix_data = same_nodes[1]` (the *second* occurrence) and resolves
the finding with `_refactor_merge_import_from`, whose transaction is

```python
aliasses = [alias for node in [st_elm, self.fix_data] for alias in node.nodes]
names = list({... rendered alias ...})
names.sort()
resolver.remove(self.fix_data)
resolver.replace([f"from ... import ..."])
```

so only the anchor (first occurrence) and the second occurrence
contribute aliases, and only the second occurrence is removed.
-/

/-- An import alias: the imported source name and the bound name. -/
structure ImportAlias where
  sourceName : String
  name : String
deriving DecidableEq, Repr

/-- Rendering of one alias inside the suggested import line:
`name` when bound unchanged, `source as name` otherwise. -/
def renderAlias (a : ImportAlias) : String :=
  if a.name = a.sourceName then a.name else a.sourceName ++ " as " ++ a.name

/-- One `from X import ...` statement: module, aliases and span. -/
structure FromImport where
  module : String
  aliases : List ImportAlias
  lineno : Nat
  endLineno : Nat
deriving DecidableEq, Repr

/-- The replacement line `from X import n1, n2, ...` with newline. -/
def mergedFromLine (module : String) (names : List String) : String :=
  "from " ++ module ++ " import " ++ String.intercalate ", " names ++ "\n"

/-- Embeds `_refactor_merge_import_from`: union the anchor's and the
fix-data occurrence's rendered aliases, de-duplicate and sort them, then
remove the fix-data occurrence's span and replace the anchor's span by
the single merged line. -/
def mergeImportFrom (anchor fixData : FromImport) (buf : List String) :
    Except PyExc (List String) :=
  let names := sortedDedup ((anchor.aliases ++ fixData.aliases).map renderAlias)
  match rangeChecked fixData.lineno fixData.endLineno with
  | .error e => .error e
  | .ok (l2, e2) =>
    let buf1 := buf.take (l2 - 1) ++ buf.drop e2
    match rangeChecked anchor.lineno anchor.endLineno with
    | .error e => .error e
    | .ok (l1, e1) =>
      .ok (replaceLinesOp [mergedFromLine anchor.module names] buf1 l1 e1)

/-- Embeds the occurrence selection of
`_check_imports_one_from_only_once`: anchor is the first duplicated
occurrence, `fix_data = same_nodes[1]` the second; with fewer than two
occurrences the subscript `same_nodes[1]` would raise `IndexError`
(the rule fires only when at least two exist). -/
def mergeDuplicateFromImports (occs : List FromImport)
    (buf : List String) : Except PyExc (List String) :=
  match occs with
  | o0 :: o1 :: _ => mergeImportFrom o0 o1 buf
  | _ => .error .indexError

/-- C5 counterexample: with three `from m import ...` occurrences the
single merge fix only unions the first two occurrences' aliases and only
removes the second occurrence — the resulting buffer still contains
`from m import c`, not one statement listing the union of all three. -/
theorem merge_import_from_three_occurrences_cex :
    mergeDuplicateFromImports
      [⟨"m", [⟨"a", "a"⟩], 1, 1⟩, ⟨"m", [⟨"b", "b"⟩], 2, 2⟩,
       ⟨"m", [⟨"c", "c"⟩], 3, 3⟩]
      ["from m import a\n", "from m import b\n", "from m import c\n"]
      = Except.ok ["from m import a, b\n", "from m import c\n"] ∧
    ["from m import a, b\n", "from m import c\n"]
      ≠ ["from m import a, b, c\n"] := by
  constructor
  · rfl
  · decide

/-- C5 amended: the merge fix acts on the anchor (first occurrence) and
the second occurrence only.  For spans inside the buffer with the anchor
strictly before the second occurrence, it succeeds and produces the
buffer with the anchor's span replaced by the single merged line — the
de-duplicated, sorted union of the two occurrences' rendered aliases —
the second occurrence's span removed, and everything else (including any
third or later occurrence) untouched. -/
theorem merge_import_from_amended (module : String)
    (a1 a2 : List ImportAlias) (rest : List FromImport)
    (buf : List String) (s1 e1 s2 e2 : Nat)
    (h1 : 1 ≤ s1) (h1e : s1 ≤ e1) (h2 : e1 < s2) (h3 : s2 ≤ e2)
    (hlen : e2 ≤ buf.length) :
    mergeDuplicateFromImports
        (⟨module, a1, s1, e1⟩ :: ⟨module, a2, s2, e2⟩ :: rest) buf
      = Except.ok (buf.take (s1 - 1)
          ++ [mergedFromLine module (sortedDedup ((a1 ++ a2).map renderAlias))]
          ++ (buf.drop e1).take (s2 - 1 - e1)
          ++ buf.drop e2) := by
  have hr2 : rangeChecked s2 e2 = .ok (s2, e2) := by
    unfold rangeChecked
    rw [if_pos]
    omega
  have hr1 : rangeChecked s1 e1 = .ok (s1, e1) := by
    unfold rangeChecked
    rw [if_pos]
    omega
  have hlentake : (buf.take (s2 - 1)).length = s2 - 1 := by
    rw [List.length_take]
    omega
  simp only [mergeDuplicateFromImports, mergeImportFrom, hr1, hr2]
  have htk : (buf.take (s2 - 1) ++ buf.drop e2).take (s1 - 1)
      = buf.take (s1 - 1) := by
    rw [List.take_append_eq_append_take, hlentake]
    have hz : s1 - 1 - (s2 - 1) = 0 := by omega
    rw [hz, List.take_zero, List.append_nil, List.take_take]
    congr 1
    omega
  have hdr : (buf.take (s2 - 1) ++ buf.drop e2).drop e1
      = (buf.drop e1).take (s2 - 1 - e1) ++ buf.drop e2 := by
    rw [List.drop_append_eq_append_drop, hlentake]
    have hz : e1 - (s2 - 1) = 0 := by omega
    rw [hz, List.drop_zero, List.drop_take]
  simp [replaceLinesOp, htk, hdr]

/-- C5 witness: the two-occurrence `collections` scenario; the amended
statement instantiates to the single merged line
`from collections import OrderedDict, deque`. -/
theorem merge_import_from_amended_witness :
    mergeDuplicateFromImports
      [⟨"collections", [⟨"OrderedDict", "OrderedDict"⟩], 1, 1⟩,
       ⟨"collections", [⟨"deque", "deque"⟩], 2, 2⟩]
      ["from collections import OrderedDict\n",
       "from collections import deque\n"]
      = Except.ok ["from collections import OrderedDict, deque\n"] := by
  have h := merge_import_from_amended "collections"
    [⟨"OrderedDict", "OrderedDict"⟩] [⟨"deque", "deque"⟩] []
    ["from collections import OrderedDict\n",
     "from collections import deque\n"]
    1 1 2 2 (by decide) (by decide) (by decide) (by decide) (by decide)
  rw [h]
  exact congrArg Except.ok (by decide)

/-! ## Public members of the export-list rule

`RuleChecker.public_members` walks the top-level nodes: classes,
functions and annotated assignments contribute themselves, imports
contribute their aliases, assignments their target variables — each kept
when its name neither starts with an underscore nor contains a dot or a
bracket — optionally sorted by name.  `CheckAllAtTheEnd._public_members`
then keeps an entry unless it is an import alias without the "public"
tag.
-/

/-- A named top-level item together with the marker tags of its line. -/
structure Named where
  name : String
  tags : List String
deriving DecidableEq, Repr

/-- An entry of the computed public-member list: its name, whether it
came from an import alias, and its tags. -/
structure PubEntry where
  name : String
  isAlias : Bool
  tags : List String
deriving DecidableEq, Repr

/-- The shapes of top-level nodes `public_members` distinguishes. -/
inductive TopNode where
  | classDef (v : Named)
  | funcDef (v : Named)
  | annAssign (v : Named)
  | importStmt (aliases : List Named)
  | importFrom (aliases : List Named)
  | assign (vars : List Named)
  | otherNode
deriving DecidableEq, Repr

/-- Embeds `is_public_root`: the name does not start with `_` and
contains neither `.` nor `[`. -/
def is_public_root (name : String) : Bool :=
  !(pyStartsWith name "_") && !(pyContainsChar name '.')
    && !(pyContainsChar name '[')

/-- The entries one top-level node contributes to `public_members`. -/
def elmEntries : TopNode → List PubEntry
  | .classDef v =>
    if is_public_root v.name then [⟨v.name, false, v.tags⟩] else []
  | .funcDef v =>
    if is_public_root v.name then [⟨v.name, false, v.tags⟩] else []
  | .annAssign v =>
    if is_public_root v.name then [⟨v.name, false, v.tags⟩] else []
  | .importStmt al => al.filterMap (fun a =>
      if is_public_root a.name then some ⟨a.name, true, a.tags⟩ else none)
  | .importFrom al => al.filterMap (fun a =>
      if is_public_root a.name then some ⟨a.name, true, a.tags⟩ else none)
  | .assign vs => vs.filterMap (fun v =>
      if is_public_root v.name then some ⟨v.name, false, v.tags⟩ else none)
  | .otherNode => []

/-- Embeds `RuleChecker.public_members`: collect in source order, then
(`sort=True`) stably sort by name, as Python `sorted` does. -/
def public_members (sort : Bool) (nodes : List TopNode) : List PubEntry :=
  let pm := nodes.flatMap elmEntries
  if sort then pm.insertionSort (fun a b => strLe a.name b.name = true)
  else pm

/-- Embeds `CheckAllAtTheEnd._public_members`: filter
`public_members(sort=True)` keeping non-aliases and aliases tagged
"public". -/
def checkAll_public_members (nodes : List TopNode) : List PubEntry :=
  (public_members true nodes).filter
    (fun e => !e.isAlias || e.tags.contains "public")

/-- Spec-side flattening: every named top-level candidate, with no
publicness filtering at all. -/
def topLevelNamed : TopNode → List PubEntry
  | .classDef v => [⟨v.name, false, v.tags⟩]
  | .funcDef v => [⟨v.name, false, v.tags⟩]
  | .annAssign v => [⟨v.name, false, v.tags⟩]
  | .importStmt al => al.map (fun a => ⟨a.name, true, a.tags⟩)
  | .importFrom al => al.map (fun a => ⟨a.name, true, a.tags⟩)
  | .assign vs => vs.map (fun v => ⟨v.name, false, v.tags⟩)
  | .otherNode => []

/-- Membership in a publicness-guarded singleton. -/
theorem mem_singleton_pub (v : Named) (isAl : Bool) (e : PubEntry) :
    (e ∈ if is_public_root v.name then [(⟨v.name, isAl, v.tags⟩ : PubEntry)]
          else ([] : List PubEntry)) ↔
      (e ∈ [(⟨v.name, isAl, v.tags⟩ : PubEntry)]
        ∧ is_public_root e.name = true) := by
  by_cases h : is_public_root v.name = true
  · rw [if_pos h]
    constructor
    · intro he
      rw [List.mem_singleton] at he
      subst he
      exact ⟨List.mem_singleton_self _, h⟩
    · exact fun he => he.1
  · rw [if_neg h]
    constructor
    · intro he
      exact absurd he (List.not_mem_nil e)
    · rintro ⟨he, hp⟩
      rw [List.mem_singleton] at he
      subst he
      exact absurd hp h
/-- Membership in a publicness-guarded `filterMap` over named items. -/
theorem mem_filterMap_pub (l : List Named) (isAl : Bool) (e : PubEntry) :
    (e ∈ l.filterMap (fun a =>
        if is_public_root a.name then some (⟨a.name, isAl, a.tags⟩ : PubEntry)
        else none)) ↔
      (e ∈ l.map (fun a => (⟨a.name, isAl, a.tags⟩ : PubEntry))
        ∧ is_public_root e.name = true) := by
  rw [List.mem_filterMap, List.mem_map]
  constructor
  · rintro ⟨a, ha, hfa⟩
    by_cases h : is_public_root a.name = true
    · rw [if_pos h] at hfa
      injection hfa with hfa
      subst hfa
      exact ⟨⟨a, ha, rfl⟩, h⟩
    · rw [if_neg h] at hfa
      exact absurd hfa (by simp)
  · rintro ⟨⟨a, ha, hae⟩, hp⟩
    subst hae
    exact ⟨a, ha, by rw [if_pos hp]⟩

/-- Per-node membership: a node's contributed entries are exactly its
named candidates with public root names. -/
theorem mem_elmEntries (n : TopNode) (e : PubEntry) :
    e ∈ elmEntries n ↔
      e ∈ topLevelNamed n ∧ is_public_root e.name = true := by
  cases n with
  | classDef v => exact mem_singleton_pub v false e
  | funcDef v => exact mem_singleton_pub v false e
  | annAssign v => exact mem_singleton_pub v false e
  | importStmt al => exact mem_filterMap_pub al true e
  | importFrom al => exact mem_filterMap_pub al true e
  | assign vs => exact mem_filterMap_pub vs false e
  | otherNode => simp [elmEntries, topLevelNamed]

/-- C6 counterexample: an import alias `foo` has a public root name, yet
without the "public" tag it is excluded from the export-list rule's
public members; and the "public" tag does not override the naming
convention — a tagged alias `_bar` is excluded as well. -/
theorem export_public_members_cex :
    checkAll_public_members [TopNode.importStmt [⟨"foo", []⟩]] = [] ∧
    is_public_root "foo" = true ∧
    checkAll_public_members [TopNode.importStmt [⟨"_bar", ["public"]⟩]]
      = [] := by
  refine ⟨by decide, by decide, by decide⟩

/-- C6 amended: for the export-list rule on a regular file, the computed
public members are exactly the top-level class / function /
annotated-variable / import-alias / assignment-target candidates whose
name does not start with `_` and contains neither `.` nor `[`, further
restricted so that an import alias is kept only when it carries the
"public" tag (the tag does not rescue a name that violates the naming
convention). -/
theorem export_public_members_amended (nodes : List TopNode)
    (e : PubEntry) :
    e ∈ checkAll_public_members nodes ↔
      (e ∈ nodes.flatMap topLevelNamed ∧ is_public_root e.name = true ∧
        (e.isAlias = false ∨ "public" ∈ e.tags)) := by
  have hmem : ∀ x : PubEntry, x ∈ nodes.flatMap elmEntries ↔
      (x ∈ nodes.flatMap topLevelNamed ∧ is_public_root x.name = true) := by
    intro x
    rw [List.mem_flatMap, List.mem_flatMap]
    constructor
    · rintro ⟨n, hn, hx⟩
      have h := (mem_elmEntries n x).1 hx
      exact ⟨⟨n, hn, h.1⟩, h.2⟩
    · rintro ⟨⟨n, hn, hx⟩, hp⟩
      exact ⟨n, hn, (mem_elmEntries n x).2 ⟨hx, hp⟩⟩
  unfold checkAll_public_members public_members
  rw [List.mem_filter, if_pos rfl, List.mem_insertionSort, hmem e]
  simp [and_assoc]

/-! ## Return-annotation fix (`check_annotations.py`)

`_refactor_apend_return_annotation`:

```python
for line_no in reversed(range(st_elm.lineno, st_elm.nodes[0].lineno)):
    last_line = resolver.line[line_no].rstrip()
    ll = last_line.strip()
    if ll.startswith("#"):
        continue
    if ll.endswith("):"):
        break
if last_line.endswith("):"):
    resolver.line[line_no] = last_line[:-2] + ") -> None:\n"
else:
    self.refactor_none(st_elm)
```

The scan walks from the line before the first body statement down to the
function's first line.  When the `range` is empty — a function whose
body starts on the `def` line itself — the loop never runs and the
post-loop read of `last_line` raises `NameError` on the unbound local.
-/

/-- The 1-based indices the backward scan visits, in visit order. -/
def scanIdxs (lineno bodyLineno : Nat) : List Nat :=
  (List.range' lineno (bodyLineno - lineno)).reverse

/-- 1-based line read; all executed scans stay within the buffer. -/
def lineAt (buf : List String) (i : Nat) : String := buf.getD (i - 1) ""

/-- The scan loop: the accumulator holds the `(line_no, last_line)`
locals of the most recent iteration (`none` before any iteration), and
the comment test precedes the break test as in the source. -/
def scanLoop (buf : List String) :
    List Nat → Option (Nat × String) → Option (Nat × String)
  | [], acc => acc
  | i :: rest, _ =>
    let lastLine := pyRstrip (lineAt buf i)
    let ll := pyStrip lastLine
    if pyStartsWith ll "#" then scanLoop buf rest (some (i, lastLine))
    else if pyEndsWith ll "):" then some (i, lastLine)
    else scanLoop buf rest (some (i, lastLine))

/-- Result of the fix: a rewritten buffer, or the
"refactoring unavailable" report via `refactor_none`. -/
inductive RefOutcome where
  | rewritten (buf : List String)
  | unavailable
deriving DecidableEq, Repr

/-- Embeds `_refactor_apend_return_annotation` for a function spanning
`lineno` with first body statement at `bodyLineno`. -/
def refactorReturnAnnFix (buf : List String) (lineno bodyLineno : Nat) :
    Except PyExc RefOutcome :=
  match scanLoop buf (scanIdxs lineno bodyLineno) none with
  | none => .error .nameError
  | some (i, lastLine) =>
    if pyEndsWith lastLine "):" then
      .ok (.rewritten
        (buf.set (i - 1) (pyDropRight lastLine 2 ++ ") -> None:\n")))
    else .ok .unavailable

/-- Sanity: the two-line `def f(x):` gets rewritten to
`def f(x) -> None:` — the scenario the spec quotes. -/
theorem return_ann_fix_rewrites_simple_def :
    refactorReturnAnnFix ["def f(x):\n", "    pass\n"] 1 2
      = Except.ok (RefOutcome.rewritten
          ["def f(x) -> None:\n", "    pass\n"]) := by
  rfl

/-- C9: the claim says that whenever no signature line ending in `):` is
found the fix is reported as unavailable rather than silently skipped.
For a one-line function definition (`def f(x): pass`, body starting on
the `def` line) the scan range is empty, so no line is found — but the
code raises `NameError` on the unbound `last_line` instead of reporting
the fix unavailable. -/
theorem return_ann_fix_oneliner_name_error :
    refactorReturnAnnFix ["def f(x): pass\n"] 1 1
      = Except.error PyExc.nameError ∧
    (Except.error PyExc.nameError : Except PyExc RefOutcome)
      ≠ Except.ok RefOutcome.unavailable := by
  exact ⟨rfl, fun h => Except.noConfusion h⟩
